import Mathlib

/-!
Verification of the stk repository core against its specification.

Shallow embedding of:
* `DQueue<T, N>` — the fixed-capacity double-ended circular buffer
  (src/unnamed/part_000, used as `CBuffer` throughout the feature engine);
* the binary tick codec (`BinaryParser::Parser::ParseBinaryData`,
  `ReverseDifferentialEncoding`, src/cpp/src/binary_parser.cpp);
* the resampling / feature state machine (`TechnicalAnalysis`,
  src/cpp/src/technical_analysis.cpp).

Machine integers are modelled as `Nat` bit patterns with explicit `% 2^w`
where the C++ arithmetic can wrap; C++ `float` price/volume arithmetic is
modelled over `ℚ` (every operation a claim touches — comparison, assignment,
addition of integral contributions — is exact).
-/

namespace Stk

/-! ## DQueue (src/unnamed/part_000)

`wrap_add`, `wrap_inc` mirror the C++ wrapping helpers (conditional
subtraction, not modulo).  The structure carries the physical array
(`data_ : Fin N → T`, the `std::array<T, N>`), the physical index of the
logical front (`start_`) and the element count (`size_`), together with the
representation invariants the C++ maintains by construction
(`start_ < N`, `size_ ≤ N`). -/

def wrap_add (N base add : Nat) : Nat :=
  if base + add ≥ N then base + add - N else base + add

def wrap_inc (N idx : Nat) : Nat :=
  if idx + 1 < N then idx + 1 else 0

theorem wrap_add_lt {N base add : Nat} (hb : base < N) (ha : add ≤ N) :
    wrap_add N base add < N := by
  unfold wrap_add; split <;> omega

structure DQueue (T : Type) (N : Nat) where
  data_ : Fin N → T
  start_ : Nat
  size_ : Nat
  hstart : start_ < N
  hsize : size_ ≤ N

namespace DQueue

variable {T : Type} {N : Nat}

/-- `push_back`: if not full, write at `wrap_add(start_, size_)` and grow;
if full, overwrite the front slot and advance `start_` (drop oldest). -/
def push_back (q : DQueue T N) (v : T) : DQueue T N :=
  if h : q.size_ < N then
    { data_ := fun j => if j.val = wrap_add N q.start_ q.size_ then v else q.data_ j
      start_ := q.start_
      size_ := q.size_ + 1
      hstart := q.hstart
      hsize := h }
  else
    { data_ := fun j => if j.val = q.start_ then v else q.data_ j
      start_ := wrap_inc N q.start_
      size_ := q.size_
      hstart := by have := q.hstart; unfold wrap_inc; split <;> omega
      hsize := q.hsize }

/-- `back()` requires `size_ > 0` (C++ `assert`); modelled as an `Option`
that is `none` exactly when the precondition is violated. -/
def back? (q : DQueue T N) : Option T :=
  if h : 0 < q.size_ then
    some (q.data_ ⟨wrap_add N q.start_ (q.size_ - 1),
      wrap_add_lt q.hstart (by have := q.hsize; omega)⟩)
  else none

/-- A freshly constructed queue: value-initialized array, `start_ = size_ = 0`. -/
def mkEmpty [Inhabited T] (hN : 0 < N) : DQueue T N :=
  { data_ := fun _ => default
    start_ := 0
    size_ := 0
    hstart := hN
    hsize := Nat.zero_le _ }

/-- `subspan(logical_start, length)`: the (head, tail) pair of contiguous
array slices returned by the C++ `subspan`. -/
def subspan (q : DQueue T N) (logical_start length : Nat) : List T × List T :=
  if length = 0 then ([], [])
  else
    let physical_start := wrap_add N q.start_ logical_start
    let contig_size := N - physical_start
    if length ≤ contig_size then
      (((List.ofFn q.data_).drop physical_start).take length, [])
    else
      (((List.ofFn q.data_).drop physical_start).take contig_size,
        (List.ofFn q.data_).take (length - contig_size))

/-- `span()` as one list: head segment followed by tail segment. -/
def spanList (q : DQueue T N) : List T :=
  (q.subspan 0 q.size_).1 ++ (q.subspan 0 q.size_).2

/-- The logical content of the queue, read element-wise through the wrap
arithmetic: element `i` lives at physical index `wrap_add start_ i`. -/
def logical (q : DQueue T N) : List T :=
  List.ofFn (fun i : Fin q.size_ =>
    q.data_ ⟨wrap_add N q.start_ i.val,
      wrap_add_lt q.hstart (Nat.le_of_lt (Nat.lt_of_lt_of_le i.isLt q.hsize))⟩)

def pushAll (q : DQueue T N) (xs : List T) : DQueue T N :=
  xs.foldl push_back q

theorem logical_length (q : DQueue T N) : q.logical.length = q.size_ := by
  simp [logical]

theorem push_back_size (q : DQueue T N) (v : T) :
    (q.push_back v).size_ = if q.size_ < N then q.size_ + 1 else q.size_ := by
  unfold push_back; split <;> simp_all

theorem push_back_start (q : DQueue T N) (v : T) :
    (q.push_back v).start_ = if q.size_ < N then q.start_ else wrap_inc N q.start_ := by
  unfold push_back; split <;> simp_all

theorem push_back_data (q : DQueue T N) (v : T) (j : Fin N) :
    (q.push_back v).data_ j =
      if q.size_ < N then
        (if j.val = wrap_add N q.start_ q.size_ then v else q.data_ j)
      else
        (if j.val = q.start_ then v else q.data_ j) := by
  unfold push_back; split <;> simp_all

theorem logical_getElem (q : DQueue T N) (i : Nat) (hi : i < q.logical.length) :
    q.logical[i] = q.data_ ⟨wrap_add N q.start_ i,
      wrap_add_lt q.hstart (le_of_lt (lt_of_lt_of_le
        (by rwa [logical_length] at hi) q.hsize))⟩ := by
  simp only [logical, List.getElem_ofFn]

theorem back?_push_back (q : DQueue T N) (v : T) : (q.push_back v).back? = some v := by
  have hst := q.hstart
  have hsz := q.hsize
  by_cases h : q.size_ < N
  · simp only [back?, push_back_size, push_back_start, push_back_data, if_pos h]
    rw [dif_pos (by omega : 0 < q.size_ + 1)]
    rw [if_pos (by rw [Nat.add_sub_cancel])]
  · simp only [back?, push_back_size, push_back_start, push_back_data, if_neg h]
    rw [dif_pos (by omega : 0 < q.size_)]
    rw [if_pos (by unfold wrap_add wrap_inc; split_ifs <;> omega)]

theorem back?_isSome_of_size_pos (q : DQueue T N) (h : 0 < q.size_) :
    q.back?.isSome = true := by
  simp [back?, h]

theorem logical_push_back (q : DQueue T N) (v : T) :
    (q.push_back v).logical =
      if q.size_ < N then q.logical ++ [v] else q.logical.drop 1 ++ [v] := by
  have hst := q.hstart
  have hsz := q.hsize
  by_cases h : q.size_ < N
  · rw [if_pos h]
    apply List.ext_getElem
    · rw [logical_length, push_back_size, if_pos h]
      simp [logical_length]
    · intro i h1 h2
      rw [logical_getElem]
      rw [logical_length, push_back_size, if_pos h] at h1
      simp only [push_back_data, push_back_start, if_pos h]
      by_cases hi : i < q.size_
      · rw [List.getElem_append_left (by rwa [logical_length])]
        rw [logical_getElem]
        rw [if_neg (by unfold wrap_add; split_ifs <;> omega)]
      · have hieq : i = q.size_ := by omega
        rw [List.getElem_append_right (by rw [logical_length]; omega)]
        rw [if_pos (by rw [hieq])]
        simp [logical_length, hieq]
  · have hfull : q.size_ = N := by omega
    rw [if_neg h]
    apply List.ext_getElem
    · rw [logical_length, push_back_size, if_neg h]
      simp [logical_length]
      omega
    · intro i h1 h2
      rw [logical_getElem]
      rw [logical_length, push_back_size, if_neg h] at h1
      simp only [push_back_data, push_back_start, if_neg h]
      by_cases hi : i < q.size_ - 1
      · rw [List.getElem_append_left (by simp [logical_length]; omega)]
        rw [List.getElem_drop, logical_getElem]
        rw [if_neg (by unfold wrap_add wrap_inc; split_ifs <;> omega)]
        apply congrArg q.data_
        apply Fin.ext
        simp only
        unfold wrap_add wrap_inc
        split_ifs <;> omega
      · have hieq : i = q.size_ - 1 := by omega
        rw [List.getElem_append_right (by simp [logical_length]; omega)]
        rw [if_pos (by unfold wrap_add wrap_inc; split_ifs <;> omega)]
        simp [logical_length]

theorem spanList_eq_logical (q : DQueue T N) : q.spanList = q.logical := by
  have hst := q.hstart
  have hsz := q.hsize
  by_cases h0 : q.size_ = 0
  · simp [spanList, subspan, logical, h0]
  · have hps : wrap_add N q.start_ 0 = q.start_ := by unfold wrap_add; split <;> omega
    simp only [spanList, subspan, if_neg h0, hps]
    by_cases hlen : q.size_ ≤ N - q.start_
    · rw [if_pos hlen]
      simp only [List.append_nil]
      apply List.ext_getElem
      · simp only [List.length_take, List.length_drop, List.length_ofFn, logical_length]
        omega
      · intro i h1 h2
        simp only [List.length_take, List.length_drop, List.length_ofFn] at h1
        rw [List.getElem_take, List.getElem_drop, logical_getElem]
        simp only [List.getElem_ofFn]
        apply congrArg q.data_
        apply Fin.ext
        simp only
        unfold wrap_add
        split_ifs <;> omega
    · rw [if_neg hlen]
      apply List.ext_getElem
      · simp only [List.length_append, List.length_take, List.length_drop,
          List.length_ofFn, logical_length]
        omega
      · intro i h1 h2
        simp only [List.length_append, List.length_take, List.length_drop,
          List.length_ofFn] at h1
        rw [logical_getElem]
        by_cases hi : i < N - q.start_
        · rw [List.getElem_append_left (by
            simp only [List.length_take, List.length_drop, List.length_ofFn]; omega)]
          rw [List.getElem_take, List.getElem_drop]
          simp only [List.getElem_ofFn]
          apply congrArg q.data_
          apply Fin.ext
          simp only
          unfold wrap_add
          split_ifs <;> omega
        · rw [List.getElem_append_right (by
            simp only [List.length_take, List.length_drop, List.length_ofFn]; omega)]
          rw [List.getElem_take]
          simp only [List.getElem_ofFn, List.length_take, List.length_drop,
            List.length_ofFn]
          apply congrArg q.data_
          apply Fin.ext
          simp only
          unfold wrap_add
          split_ifs <;> omega

theorem logical_pushAll (q : DQueue T N) (xs : List T) :
    (q.pushAll xs).logical =
      (q.logical ++ xs).drop ((q.logical ++ xs).length - N) := by
  induction xs generalizing q with
  | nil =>
    have : q.logical.length - N = 0 := by
      have := q.hsize
      rw [logical_length]; omega
    simp [pushAll, this]
  | cons x xs ih =>
    have hstep : q.pushAll (x :: xs) = (q.push_back x).pushAll xs := by
      simp [pushAll]
    rw [hstep, ih, logical_push_back]
    by_cases h : q.size_ < N
    · rw [if_pos h]
      simp [List.append_assoc]
    · rw [if_neg h]
      have hfull : q.size_ = N := by have := q.hsize; omega
      have hN : 0 < N := by have := q.hstart; omega
      have hlq : q.logical.length = N := by rw [logical_length, hfull]
      obtain ⟨y, l, hy⟩ : ∃ y l, q.logical = y :: l := by
        cases hq : q.logical with
        | nil => rw [hq] at hlq; simp at hlq; omega
        | cons a b => exact ⟨a, b, rfl⟩
      have hl : l.length = N - 1 := by
        have := congrArg List.length hy
        simp at this; omega
      rw [hy]
      simp only [List.drop_succ_cons, List.drop_zero]
      have hA : ((l ++ [x]) ++ xs).length - N = xs.length := by
        simp only [List.length_append, List.length_cons, List.length_nil]
        omega
      have hB : ((y :: l) ++ x :: xs).length - N = xs.length + 1 := by
        simp only [List.length_append, List.length_cons]
        omega
      rw [hA, hB, List.cons_append, List.drop_succ_cons, List.append_assoc]
      rfl

end DQueue

/-! ## Binary tick codec (src/cpp/src/binary_parser.cpp)

`TickRecord` mirrors the packed 54-byte struct of
src/cpp/include/binary_parser.hpp.  Fixed-width integer fields are modelled
as `Nat` bit patterns (`uint8`/`uint16` values, and the `int16` price ticks
as their 16-bit two's-complement patterns); C++ `+=` on these fields wraps,
which is `% 2^w` on the patterns. -/

structure TickRecord where
  sync : Bool
  date : Nat
  time_s : Nat
  latest_price_tick : Nat
  trade_count : Nat
  turnover : Nat
  volume : Nat
  bid_price_ticks : Fin 5 → Nat
  bid_volumes : Fin 5 → Nat
  ask_price_ticks : Fin 5 → Nat
  ask_volumes : Fin 5 → Nat
  direction : Nat
deriving DecidableEq

attribute [ext] TickRecord

/-- The fields are in range for their C++ widths (the delta-coded fields:
`date` is `uint8`, the rest 16-bit patterns). -/
def wfTickRecord (r : TickRecord) : Prop :=
  r.date < 256 ∧ r.time_s < 65536 ∧ r.latest_price_tick < 65536 ∧
    (∀ j, r.bid_price_ticks j < 65536) ∧ (∀ j, r.ask_price_ticks j < 65536)

instance (r : TickRecord) : Decidable (wfTickRecord r) := by
  unfold wfTickRecord; infer_instance

/-- One step of `ReverseDifferentialEncoding`: `records[i] += records[i-1]`
on each delta-coded field, with the C++ fixed-width wrap. -/
def addDelta (r prev : TickRecord) : TickRecord :=
  { r with
    date := (r.date + prev.date) % 256
    time_s := (r.time_s + prev.time_s) % 65536
    latest_price_tick := (r.latest_price_tick + prev.latest_price_tick) % 65536
    bid_price_ticks := fun j => (r.bid_price_ticks j + prev.bid_price_ticks j) % 65536
    ask_price_ticks := fun j => (r.ask_price_ticks j + prev.ask_price_ticks j) % 65536 }

def reverseDiffFrom (prev : TickRecord) : List TickRecord → List TickRecord
  | [] => []
  | r :: rs =>
    let d := addDelta r prev
    d :: reverseDiffFrom d rs

/-- `Parser::ReverseDifferentialEncoding`: record 0 is left unchanged; each
later record accumulates the previous *already-reversed* record. -/
def reverseDifferentialEncoding : List TickRecord → List TickRecord
  | [] => []
  | r :: rs => r :: reverseDiffFrom r rs

/-- Modelled from the spec: one step of the (external, not under src/)
differential encoder — each delta-coded field stored as the difference from
the immediately preceding original record, modulo the field width. -/
def subDelta (r prev : TickRecord) : TickRecord :=
  { r with
    date := (r.date + (256 - prev.date % 256)) % 256
    time_s := (r.time_s + (65536 - prev.time_s % 65536)) % 65536
    latest_price_tick :=
      (r.latest_price_tick + (65536 - prev.latest_price_tick % 65536)) % 65536
    bid_price_ticks := fun j =>
      (r.bid_price_ticks j + (65536 - prev.bid_price_ticks j % 65536)) % 65536
    ask_price_ticks := fun j =>
      (r.ask_price_ticks j + (65536 - prev.ask_price_ticks j % 65536)) % 65536 }

def diffEncodeFrom (prev : TickRecord) : List TickRecord → List TickRecord
  | [] => []
  | r :: rs => subDelta r prev :: diffEncodeFrom r rs

/-- Modelled from the spec: the differential encoder — record 0 kept
absolute, each later record delta-coded against its immediate predecessor. -/
def differentialEncode : List TickRecord → List TickRecord
  | [] => []
  | r :: rs => r :: diffEncodeFrom r rs

theorem addDelta_subDelta (r prev : TickRecord)
    (hr : wfTickRecord r) (hp : wfTickRecord prev) :
    addDelta (subDelta r prev) prev = r := by
  obtain ⟨h1, h2, h3, h4, h5⟩ := hr
  obtain ⟨g1, g2, g3, g4, g5⟩ := hp
  refine TickRecord.ext rfl ?_ ?_ ?_ rfl rfl rfl ?_ rfl ?_ rfl rfl
  · show ((r.date + (256 - prev.date % 256)) % 256 + prev.date) % 256 = r.date
    omega
  · show ((r.time_s + (65536 - prev.time_s % 65536)) % 65536 + prev.time_s) % 65536 = r.time_s
    omega
  · show ((r.latest_price_tick + (65536 - prev.latest_price_tick % 65536)) % 65536 +
      prev.latest_price_tick) % 65536 = r.latest_price_tick
    omega
  · funext j
    have := h4 j
    have := g4 j
    show ((r.bid_price_ticks j + (65536 - prev.bid_price_ticks j % 65536)) % 65536 +
      prev.bid_price_ticks j) % 65536 = r.bid_price_ticks j
    omega
  · funext j
    have := h5 j
    have := g5 j
    show ((r.ask_price_ticks j + (65536 - prev.ask_price_ticks j % 65536)) % 65536 +
      prev.ask_price_ticks j) % 65536 = r.ask_price_ticks j
    omega

theorem reverseDiffFrom_diffEncodeFrom (rs : List TickRecord) :
    ∀ prev : TickRecord, wfTickRecord prev → (∀ r ∈ rs, wfTickRecord r) →
      reverseDiffFrom prev (diffEncodeFrom prev rs) = rs := by
  induction rs with
  | nil => intro prev _ _; rfl
  | cons r rs ih =>
    intro prev hp hrs
    have hr : wfTickRecord r := hrs r (List.mem_cons_self r rs)
    simp only [diffEncodeFrom, reverseDiffFrom]
    rw [addDelta_subDelta r prev hr hp]
    rw [ih r hr (fun x hx => hrs x (List.mem_cons_of_mem r hx))]

/-- Non-delta-coded fields of a record (everything the reversal must not
touch): `sync`, `trade_count`, `turnover`, `volume`, the two volume arrays
and `direction`. -/
def nonDeltaFields (r : TickRecord) :
    Bool × Nat × Nat × Nat × (Fin 5 → Nat) × (Fin 5 → Nat) × Nat :=
  (r.sync, r.trade_count, r.turnover, r.volume, r.bid_volumes, r.ask_volumes, r.direction)

theorem reverseDiffFrom_length (rs : List TickRecord) :
    ∀ prev, (reverseDiffFrom prev rs).length = rs.length := by
  induction rs with
  | nil => intro prev; rfl
  | cons r rs ih =>
    intro prev
    simp only [reverseDiffFrom, List.length_cons, ih]

theorem nonDeltaFields_addDelta (r prev : TickRecord) :
    nonDeltaFields (addDelta r prev) = nonDeltaFields r := rfl

theorem reverseDiffFrom_nonDelta (rs : List TickRecord) :
    ∀ (prev : TickRecord) (i : Nat) (h : i < rs.length)
      (h2 : i < (reverseDiffFrom prev rs).length),
      nonDeltaFields ((reverseDiffFrom prev rs).get ⟨i, h2⟩) =
        nonDeltaFields (rs.get ⟨i, h⟩) := by
  induction rs with
  | nil => intro prev i h h2; simp at h
  | cons r rs ih =>
    intro prev i h h2
    match i with
    | 0 => exact nonDeltaFields_addDelta r prev
    | i + 1 =>
      simp only [reverseDiffFrom, List.get_cons_succ] at h2 ⊢
      exact ih (addDelta r prev) i (by simpa using h) (by simpa using h2)

/-! `Parser::ParseBinaryData`: rejects inputs whose size is not a positive
multiple of `sizeof(TickRecord) = 54` (prints an error and returns the empty
vector — modelled as `none`); otherwise `memcpy`s the bytes into
`record_count` consecutive 54-byte records, modelled byte-exactly as the
list of 54-byte slices in order. -/

def parseChunks (b : List Nat) : List (List Nat) :=
  (List.range (b.length / 54)).map (fun i => (b.drop (54 * i)).take 54)

def parseBinaryData (binary_data : List Nat) : Option (List (List Nat)) :=
  let record_count := binary_data.length / 54
  if record_count = 0 ∨ binary_data.length % 54 ≠ 0 then none
  else some (parseChunks binary_data)

theorem parseChunks_length (b : List Nat) :
    (parseChunks b).length = b.length / 54 := by
  simp [parseChunks]

theorem join_chunks (n : Nat) :
    ∀ b : List Nat, b.length = 54 * n →
      ((List.range n).map (fun i => (b.drop (54 * i)).take 54)).flatten = b := by
  induction n with
  | zero =>
    intro b hb
    simp only [List.range_zero, List.map_nil, List.flatten_nil]
    exact (List.eq_nil_of_length_eq_zero (by omega)).symm
  | succ n ih =>
    intro b hb
    rw [List.range_succ_eq_map]
    simp only [List.map_cons, List.flatten_cons, List.map_map]
    have hhead : (b.drop (54 * 0)).take 54 = b.take 54 := by norm_num
    have htail :
        ((List.range n).map ((fun i => (b.drop (54 * i)).take 54) ∘ Nat.succ)) =
          (List.range n).map (fun i => ((b.drop 54).drop (54 * i)).take 54) := by
      apply List.map_congr_left
      intro i _
      simp only [Function.comp_apply, List.drop_drop]
      congr 2
      omega
    rw [hhead, htail, ih (b.drop 54) (by rw [List.length_drop, hb]; omega)]
    exact List.take_append_drop 54 b

theorem parseChunks_join (b : List Nat) (hb : b.length % 54 = 0) :
    (parseChunks b).flatten = b := by
  unfold parseChunks
  exact join_chunks (b.length / 54) b (by omega)

/-! ## TechnicalAnalysis (src/cpp/src/technical_analysis.cpp)

`Table::Snapshot_Record` / `Table::Bar_1m_Record` from
src/cpp/include/define/Dtype.hpp; prices (C++ `float`, RMB) over `ℚ`,
unsigned integer fields as `Nat`.  The analysis `CBuffer<_, BLen>` windows
are the `DQueue` above with `BLen = 100`.  C++ `open` is `open_` here
(`open` is a Lean keyword). -/

abbrev BLen : Nat := 100

def snapshot_interval : Nat := 3

def PRICE_EPSILON : ℚ := 1 / 1000000

structure Snapshot_Record where
  year : Nat
  month : Nat
  day : Nat
  hour : Nat
  minute : Nat
  second : Nat
  seconds_in_day : Nat
  latest_price_tick : ℚ
  trade_count : Nat
  volume : Nat
  turnover : Nat
  bid_price_ticks : Fin 5 → ℚ
  bid_volumes : Fin 5 → Nat
  ask_price_ticks : Fin 5 → ℚ
  ask_volumes : Fin 5 → Nat
  direction : Nat
deriving DecidableEq, Inhabited

structure Bar_1m_Record where
  year : Nat
  month : Nat
  day : Nat
  hour : Nat
  minute : Nat
  open_ : ℚ
  high : ℚ
  low : ℚ
  close : ℚ
  volume : ℚ
  turnover : ℚ
deriving DecidableEq, Inhabited

/-- The `TechnicalAnalysis` object state: gap/session bookkeeping, the
currently open bar, the two growing output tables and the analysis ring
buffers touched by `AnalyzeSnapshot` / `AnalyzeMinuteBar`.
(`gap_snapshot_` is a C++ scratch member written by `GetGapSnapshot` right
before each use; it is modelled by the pure `getGapSnapshot` below.) -/
structure TAState where
  has_previous_snapshot_ : Bool
  has_current_bar_ : Bool
  last_processed_time_ : Nat
  last_snapshot_ : Snapshot_Record
  current_bar_ : Bar_1m_Record
  continuous_snapshots_ : List Snapshot_Record
  minute_bars_ : List Bar_1m_Record
  snapshot_timestamps_ : DQueue Nat BLen
  snapshot_prices_ : DQueue ℚ BLen
  snapshot_volumes_ : DQueue ℚ BLen
  snapshot_turnovers_ : DQueue ℚ BLen
  snapshot_vwaps_ : DQueue ℚ BLen
  snapshot_directions_ : DQueue Nat BLen
  snapshot_spreads_ : DQueue ℚ BLen
  snapshot_mid_prices_ : DQueue ℚ BLen
  bar_timestamps_ : DQueue Nat BLen
  bar_opens_ : DQueue ℚ BLen
  bar_highs_ : DQueue ℚ BLen
  bar_lows_ : DQueue ℚ BLen
  bar_closes_ : DQueue ℚ BLen
  bar_volumes_ : DQueue ℚ BLen
  bar_turnovers_ : DQueue ℚ BLen
  bar_vwaps_ : DQueue ℚ BLen

def initialState : TAState :=
  { has_previous_snapshot_ := false
    has_current_bar_ := false
    last_processed_time_ := 0
    last_snapshot_ := default
    current_bar_ := default
    continuous_snapshots_ := []
    minute_bars_ := []
    snapshot_timestamps_ := DQueue.mkEmpty (by norm_num)
    snapshot_prices_ := DQueue.mkEmpty (by norm_num)
    snapshot_volumes_ := DQueue.mkEmpty (by norm_num)
    snapshot_turnovers_ := DQueue.mkEmpty (by norm_num)
    snapshot_vwaps_ := DQueue.mkEmpty (by norm_num)
    snapshot_directions_ := DQueue.mkEmpty (by norm_num)
    snapshot_spreads_ := DQueue.mkEmpty (by norm_num)
    snapshot_mid_prices_ := DQueue.mkEmpty (by norm_num)
    bar_timestamps_ := DQueue.mkEmpty (by norm_num)
    bar_opens_ := DQueue.mkEmpty (by norm_num)
    bar_highs_ := DQueue.mkEmpty (by norm_num)
    bar_lows_ := DQueue.mkEmpty (by norm_num)
    bar_closes_ := DQueue.mkEmpty (by norm_num)
    bar_volumes_ := DQueue.mkEmpty (by norm_num)
    bar_turnovers_ := DQueue.mkEmpty (by norm_num)
    bar_vwaps_ := DQueue.mkEmpty (by norm_num) }

/-- The vwap computed by `AnalyzeSnapshot`:
`(volume_f > 0) ? (turnover_f / volume_scaled) : snapshot_vwaps_.back()`.
`none` models the fallback calling `back()` on an empty buffer (the
`assert(size_ > 0)` precondition violation). -/
def snapshotVwap (s : TAState) (snapshot : Snapshot_Record) : Option ℚ :=
  if 0 < snapshot.volume then
    some ((snapshot.turnover : ℚ) / ((snapshot.volume : ℚ) * 100))
  else s.snapshot_vwaps_.back?

/-- `TechnicalAnalysis::AnalyzeSnapshot`. -/
def analyzeSnapshot (s : TAState) (snapshot : Snapshot_Record) : TAState :=
  let bid_price := snapshot.bid_price_ticks 0
  let ask_price := snapshot.ask_price_ticks 0
  let mid_price := bid_price + ask_price * (1 / 2)
  let spread := ask_price - bid_price
  let volume_scaled : ℚ := (snapshot.volume : ℚ) * 100
  let turnover_f : ℚ := (snapshot.turnover : ℚ)
  let vwap : ℚ := (snapshotVwap s snapshot).getD 0
  { s with
    snapshot_timestamps_ := s.snapshot_timestamps_.push_back snapshot.seconds_in_day
    snapshot_prices_ := s.snapshot_prices_.push_back snapshot.latest_price_tick
    snapshot_volumes_ := s.snapshot_volumes_.push_back volume_scaled
    snapshot_turnovers_ := s.snapshot_turnovers_.push_back turnover_f
    snapshot_vwaps_ := s.snapshot_vwaps_.push_back vwap
    snapshot_directions_ := s.snapshot_directions_.push_back snapshot.direction
    snapshot_spreads_ := s.snapshot_spreads_.push_back spread
    snapshot_mid_prices_ := s.snapshot_mid_prices_.push_back mid_price }

/-- `TechnicalAnalysis::AnalyzeMinuteBar`. -/
def analyzeMinuteBar (s : TAState) (bar : Bar_1m_Record) : TAState :=
  let vwap : ℚ := if bar.volume > PRICE_EPSILON then bar.turnover / bar.volume else 0
  let timestamp : Nat := bar.hour * 60 + bar.minute
  { s with
    bar_timestamps_ := s.bar_timestamps_.push_back timestamp
    bar_opens_ := s.bar_opens_.push_back bar.open_
    bar_highs_ := s.bar_highs_.push_back bar.high
    bar_lows_ := s.bar_lows_.push_back bar.low
    bar_closes_ := s.bar_closes_.push_back bar.close
    bar_volumes_ := s.bar_volumes_.push_back bar.volume
    bar_turnovers_ := s.bar_turnovers_.push_back bar.turnover
    bar_vwaps_ := s.bar_vwaps_.push_back vwap }

/-- `TechnicalAnalysis::IsNewMinuteBar`. -/
def isNewMinuteBar (s : TAState) (snapshot : Snapshot_Record) : Bool :=
  if s.has_current_bar_ = false then true
  else snapshot.hour != s.current_bar_.hour || snapshot.minute != s.current_bar_.minute

/-- `TechnicalAnalysis::StartNewBar`. -/
def startNewBar (s : TAState) (snapshot : Snapshot_Record) : TAState :=
  { s with
    current_bar_ :=
      { year := snapshot.year
        month := snapshot.month
        day := snapshot.day
        hour := snapshot.hour
        minute := snapshot.minute
        open_ := snapshot.latest_price_tick
        high := snapshot.latest_price_tick
        low := snapshot.latest_price_tick
        close := snapshot.latest_price_tick
        volume := ((snapshot.volume * 100 : Nat) : ℚ)
        turnover := (snapshot.turnover : ℚ) }
    has_current_bar_ := true }

/-- `TechnicalAnalysis::UpdateCurrentBar`. -/
def updateCurrentBar (s : TAState) (snapshot : Snapshot_Record) : TAState :=
  if s.has_current_bar_ = false then startNewBar s snapshot
  else
    let current_price := snapshot.latest_price_tick
    { s with
      current_bar_ :=
        { s.current_bar_ with
          high := if current_price > s.current_bar_.high then current_price
            else s.current_bar_.high
          low := if current_price < s.current_bar_.low then current_price
            else s.current_bar_.low
          close := current_price
          volume := s.current_bar_.volume + ((snapshot.volume * 100 : Nat) : ℚ)
          turnover := s.current_bar_.turnover + (snapshot.turnover : ℚ) } }

/-- `TechnicalAnalysis::FinalizeCurrentBar`. -/
def finalizeCurrentBar (s : TAState) : TAState :=
  let s1 := { s with minute_bars_ := s.minute_bars_ ++ [s.current_bar_] }
  analyzeMinuteBar s1 s1.current_bar_

/-- `TechnicalAnalysis::ProcessSnapshotInternal`. -/
def processSnapshotInternal (s : TAState) (snapshot : Snapshot_Record) : TAState :=
  let s1 := { s with continuous_snapshots_ := s.continuous_snapshots_ ++ [snapshot] }
  let s2 := analyzeSnapshot s1 snapshot
  if isNewMinuteBar s2 snapshot then
    let s3 := if s2.has_current_bar_ then finalizeCurrentBar s2 else s2
    startNewBar s3 snapshot
  else updateCurrentBar s2 snapshot

/-- `TechnicalAnalysis::GetGapSnapshot` (as a pure function of the
`last_snapshot_` it copies): intraday time fields rebuilt from the gap
timestamp (with the C++ `uint8_t` casts), trading activity zeroed. -/
def getGapSnapshot (s : TAState) (timestamp : Nat) : Snapshot_Record :=
  { s.last_snapshot_ with
    seconds_in_day := timestamp
    hour := (timestamp / 3600) % 256
    minute := ((timestamp % 3600) / 60) % 256
    second := (timestamp % 60) % 256
    trade_count := 0
    volume := 0
    turnover := 0 }

/-- The gap-fill `while (gap_time < snapshot.seconds_in_day)` loop of
`ProcessSingleSnapshot`; `gap_time` is a `uint32_t` stepped by
`snapshot_interval` mod `2^32`.  The loop always exits within `2^32`
iterations (each residue class mod `2^32` is visited at most once before a
value `≥ seconds_in_day` is hit), so fuel `2^32` is exact. -/
def gapFillLoop : Nat → TAState → Nat → Snapshot_Record → TAState
  | 0, s, _, _ => s
  | fuel + 1, s, gap_time, snapshot =>
    if gap_time < snapshot.seconds_in_day then
      gapFillLoop fuel (processSnapshotInternal s (getGapSnapshot s gap_time))
        ((gap_time + snapshot_interval) % 4294967296) snapshot
    else s

/-- `TechnicalAnalysis::ProcessSingleSnapshot`. -/
def processSingleSnapshot (s : TAState) (snapshot : Snapshot_Record) : TAState :=
  let s1 :=
    if s.has_previous_snapshot_ then
      gapFillLoop 4294967296 s
        ((s.last_processed_time_ + snapshot_interval) % 4294967296) snapshot
    else s
  let s2 := processSnapshotInternal s1 snapshot
  { s2 with
    last_snapshot_ := snapshot
    has_previous_snapshot_ := true
    last_processed_time_ := snapshot.seconds_in_day }

def processAll (s : TAState) (snapshots : List Snapshot_Record) : TAState :=
  snapshots.foldl processSingleSnapshot s

theorem processSnapshotInternal_bookkeeping (s : TAState) (snapshot : Snapshot_Record) :
    (processSnapshotInternal s snapshot).last_snapshot_ = s.last_snapshot_ ∧
    (processSnapshotInternal s snapshot).has_previous_snapshot_ = s.has_previous_snapshot_ ∧
    (processSnapshotInternal s snapshot).last_processed_time_ = s.last_processed_time_ ∧
    (processSnapshotInternal s snapshot).continuous_snapshots_ =
      s.continuous_snapshots_ ++ [snapshot] := by
  simp only [processSnapshotInternal, analyzeSnapshot, finalizeCurrentBar,
    analyzeMinuteBar, startNewBar, updateCurrentBar]
  split_ifs <;> exact ⟨rfl, rfl, rfl, rfl⟩

theorem processSnapshotInternal_vwaps (s : TAState) (snapshot : Snapshot_Record) :
    (processSnapshotInternal s snapshot).snapshot_vwaps_ =
      s.snapshot_vwaps_.push_back ((snapshotVwap s snapshot).getD 0) := by
  simp only [processSnapshotInternal, analyzeSnapshot, finalizeCurrentBar,
    analyzeMinuteBar, startNewBar, updateCurrentBar]
  split_ifs <;> rfl

theorem processSingleSnapshot_vwaps_size_pos (s : TAState) (x : Snapshot_Record) :
    0 < (processSingleSnapshot s x).snapshot_vwaps_.size_ := by
  have h : (processSingleSnapshot s x).snapshot_vwaps_ =
      (processSnapshotInternal
        (if s.has_previous_snapshot_ then
          gapFillLoop 4294967296 s
            ((s.last_processed_time_ + snapshot_interval) % 4294967296) x
         else s) x).snapshot_vwaps_ := rfl
  rw [h, processSnapshotInternal_vwaps, DQueue.push_back_size]
  simp only [BLen]
  split <;> split <;> omega

theorem gapFillLoop_succ (fuel : Nat) (s : TAState) (g : Nat) (snap : Snapshot_Record) :
    gapFillLoop (fuel + 1) s g snap =
      if g < snap.seconds_in_day then
        gapFillLoop fuel (processSnapshotInternal s (getGapSnapshot s g))
          ((g + snapshot_interval) % 4294967296) snap
      else s := rfl

theorem gapFillLoop_exit (fuel : Nat) (s : TAState) (g : Nat) (snap : Snapshot_Record)
    (h : ¬ g < snap.seconds_in_day) : gapFillLoop fuel s g snap = s := by
  cases fuel with
  | zero => rfl
  | succ n => rw [gapFillLoop_succ, if_neg h]

theorem getGapSnapshot_congr (s1 s2 : TAState) (t : Nat)
    (h : s1.last_snapshot_ = s2.last_snapshot_) :
    getGapSnapshot s1 t = getGapSnapshot s2 t := by
  simp [getGapSnapshot, h]

theorem processSingleSnapshot_no_gap (s : TAState) (snap : Snapshot_Record)
    (h : ¬ (s.last_processed_time_ + snapshot_interval) % 4294967296 <
      snap.seconds_in_day) :
    processSingleSnapshot s snap =
      { processSnapshotInternal s snap with
        last_snapshot_ := snap
        has_previous_snapshot_ := true
        last_processed_time_ := snap.seconds_in_day } := by
  unfold processSingleSnapshot
  by_cases hp : s.has_previous_snapshot_ = true
  · simp only [hp, if_true, gapFillLoop_exit _ _ _ _ h]
  · simp only [Bool.not_eq_true] at hp
    simp [hp]

end Stk

namespace Stk

/-! ## Concrete inputs used by the witnesses -/

def demoRecA : TickRecord :=
  { sync := true, date := 3, time_s := 34200, latest_price_tick := 1000,
    trade_count := 2, turnover := 500, volume := 5,
    bid_price_ticks := fun j => 990 + j.val, bid_volumes := fun _ => 10,
    ask_price_ticks := fun j => 1010 + j.val, ask_volumes := fun _ => 11,
    direction := 0 }

def demoRecB : TickRecord :=
  { sync := false, date := 3, time_s := 34203, latest_price_tick := 998,
    trade_count := 1, turnover := 200, volume := 2,
    bid_price_ticks := fun j => 991 + j.val, bid_volumes := fun _ => 7,
    ask_price_ticks := fun j => 1009 + j.val, ask_volumes := fun _ => 8,
    direction := 1 }

def demoRecords : List TickRecord := [demoRecA, demoRecB]

/-- A concrete `Snapshot_Record` (hour 9, book pinned at the trade price). -/
def mkSnap (sec minute second : Nat) (p : ℚ) (v t : Nat) : Snapshot_Record :=
  { year := 2024, month := 1, day := 2, hour := 9, minute := minute,
    second := second, seconds_in_day := sec, latest_price_tick := p,
    trade_count := 1, volume := v, turnover := t,
    bid_price_ticks := fun _ => p, bid_volumes := fun _ => 1,
    ask_price_ticks := fun _ => p, ask_volumes := fun _ => 1, direction := 0 }

/-- State after one real snapshot at 09:30:00 (seconds_in_day 34200). -/
def wState1 : TAState := processSingleSnapshot initialState (mkSnap 34200 30 0 10 5 100)

def c1SnapB : Snapshot_Record := mkSnap 34209 30 9 11 5 100

def c2SnapB : Snapshot_Record := mkSnap 30000 20 0 12 5 100

/-- State whose vwap window holds one value (vwap 3 = 600/(2*100)). -/
def wStateV : TAState := analyzeSnapshot initialState (mkSnap 34200 30 0 10 2 600)

def wSnapV0 : Snapshot_Record := mkSnap 34203 30 3 10 0 0

def wBarV0 : Bar_1m_Record :=
  { year := 2024, month := 1, day := 2, hour := 9, minute := 30,
    open_ := 10, high := 10, low := 10, close := 10, volume := 0, turnover := 7 }

end Stk

namespace Stk

/-! ## The claims -/

/-- C3: for every sequence of `push_back`s into the fixed-capacity ring
buffer `DQueue<T, N>` (starting empty), `size() ≤ N` holds after every
operation, and after pushing `N + k` elements (`k ≥ 0`) `span()` yields
exactly the most recent `N` pushed elements in push order (head segment
followed by tail segment). -/
theorem dqueue_push_back_window {T : Type} [Inhabited T] {N : Nat} (hN : 0 < N) :
    (∀ xs : List T, ((DQueue.mkEmpty hN).pushAll xs).size_ ≤ N) ∧
    (∀ (xs : List T) (k : Nat), xs.length = N + k →
      ((DQueue.mkEmpty hN).pushAll xs).spanList = xs.drop k) := by
  constructor
  · intro xs
    exact ((DQueue.mkEmpty hN).pushAll xs).hsize
  · intro xs k hlen
    rw [DQueue.spanList_eq_logical, DQueue.logical_pushAll]
    have hemp : (DQueue.mkEmpty hN : DQueue T N).logical = [] := by
      simp [DQueue.logical, DQueue.mkEmpty]
    rw [hemp, List.nil_append, hlen]
    congr 1
    omega

/-- C3 witness: pushing 5 elements into a 3-slot queue leaves exactly the
last 3, in order. -/
theorem dqueue_push_back_window_witness :
    ((DQueue.mkEmpty (by norm_num) : DQueue Nat 3).pushAll [1, 2, 3, 4, 5]).spanList =
      [3, 4, 5] := by
  have h := (dqueue_push_back_window (T := Nat) (N := 3) (by norm_num)).2
    [1, 2, 3, 4, 5] 2 (by decide)
  simpa using h

/-- C4: differentially encoding any non-empty in-range tick block (record 0
absolute, later records delta-coded against their immediate predecessor) and
then applying `ReverseDifferentialEncoding` restores the original block. -/
theorem differential_round_trip (rs : List TickRecord) (hne : rs ≠ [])
    (hwf : ∀ r ∈ rs, wfTickRecord r) :
    reverseDifferentialEncoding (differentialEncode rs) = rs := by
  cases rs with
  | nil => exact absurd rfl hne
  | cons r rs =>
    simp only [differentialEncode, reverseDifferentialEncoding]
    rw [reverseDiffFrom_diffEncodeFrom rs r (hwf r (List.mem_cons_self r rs))
      (fun x hx => hwf x (List.mem_cons_of_mem r hx))]

/-- C4 witness: the round trip on a concrete two-record block. -/
theorem differential_round_trip_witness :
    reverseDifferentialEncoding (differentialEncode demoRecords) = demoRecords :=
  differential_round_trip demoRecords (by decide) (by decide)

/-- C7 counterexample: the empty input's byte count 0 is an exact multiple
of 54, yet `ParseBinaryData` fails on it (the `record_count == 0` branch),
so failure is not exactly "byte count not a multiple of 54". -/
theorem parseBinaryData_zero_counterexample :
    parseBinaryData [] = none ∧ ([] : List Nat).length % 54 = 0 := by
  constructor <;> rfl

/-- C7 (amended): `ParseBinaryData` fails exactly when the byte count is
zero or not an exact multiple of 54; on a nonzero exact multiple it returns
the `count / 54` records obtained by reinterpreting the bytes in order
(54-byte slices whose concatenation is the input). -/
theorem parseBinaryData_amended (b : List Nat) :
    (parseBinaryData b = none ↔ b.length = 0 ∨ b.length % 54 ≠ 0) ∧
    (∀ rs, parseBinaryData b = some rs →
      rs.length = b.length / 54 ∧ rs.flatten = b) := by
  constructor
  · unfold parseBinaryData
    simp only
    split
    · rename_i hcond
      exact iff_of_true rfl (by omega)
    · rename_i hcond
      push_neg at hcond
      exact iff_of_false (by simp) (by omega)
  · intro rs hrs
    unfold parseBinaryData at hrs
    simp only at hrs
    split at hrs
    · exact absurd hrs (by simp)
    · rename_i hcond
      push_neg at hcond
      have hmod : b.length % 54 = 0 := hcond.2
      have hrs2 : parseChunks b = rs := by
        injection hrs
      rw [← hrs2]
      exact ⟨parseChunks_length b, parseChunks_join b hmod⟩

/-- C7 amended witness: a 54-byte input decodes to one record that carries
the bytes. -/
theorem parseBinaryData_amended_witness :
    (parseChunks (List.replicate 54 7)).length = (List.replicate 54 7).length / 54 ∧
    (parseChunks (List.replicate 54 7)).flatten = List.replicate 54 7 :=
  (parseBinaryData_amended (List.replicate 54 7)).2
    (parseChunks (List.replicate 54 7)) (by decide)

/-- C8: `ReverseDifferentialEncoding` keeps the block length, leaves
record 0 entirely unchanged, and leaves every record's non-delta-coded
fields (`sync`, `trade_count`, `turnover`, `volume`, both volume arrays,
`direction`) unchanged — only date/time/price-tick fields of records 1..
are touched. -/
theorem reverse_differential_frame (rs : List TickRecord) :
    (reverseDifferentialEncoding rs).length = rs.length ∧
    (reverseDifferentialEncoding rs).head? = rs.head? ∧
    (∀ (i : Nat) (h : i < rs.length)
      (h2 : i < (reverseDifferentialEncoding rs).length),
      nonDeltaFields ((reverseDifferentialEncoding rs).get ⟨i, h2⟩) =
        nonDeltaFields (rs.get ⟨i, h⟩)) := by
  cases rs with
  | nil =>
    refine ⟨rfl, rfl, ?_⟩
    intro i h h2
    simp at h
  | cons r rs =>
    refine ⟨?_, rfl, ?_⟩
    · simp only [reverseDifferentialEncoding, List.length_cons,
        reverseDiffFrom_length]
    · intro i h h2
      match i with
      | 0 => rfl
      | i + 1 =>
        simp only [reverseDifferentialEncoding, List.get_cons_succ]
        exact reverseDiffFrom_nonDelta rs r i (by simpa using h)
          (by simpa [reverseDifferentialEncoding, reverseDiffFrom_length] using h2)

/-- C8 witness: frame conditions checked on record 1 of the concrete block. -/
theorem reverse_differential_frame_witness :
    nonDeltaFields ((reverseDifferentialEncoding demoRecords).get ⟨1, by decide⟩) =
      nonDeltaFields (demoRecords.get ⟨1, by decide⟩) :=
  (reverse_differential_frame demoRecords).2.2 1 (by decide) (by decide)

end Stk

namespace Stk

/-- C1: with a previous snapshot and an incoming record exactly 9 seconds
(three grid steps) ahead, `ProcessSingleSnapshot` appends exactly 2
synthetic snapshots (at `last_time + 3` and `last_time + 6`) between the two
real ones, each with `trade_count = volume = turnover = 0` and price/book
fields copied from the last real snapshot. -/
theorem gap_fill_9s (s : TAState) (snap : Snapshot_Record)
    (hprev : s.has_previous_snapshot_ = true)
    (hgap : snap.seconds_in_day = s.last_processed_time_ + 9)
    (hrange : s.last_processed_time_ + 9 < 4294967296) :
    (processSingleSnapshot s snap).continuous_snapshots_ =
      s.continuous_snapshots_ ++
        [getGapSnapshot s (s.last_processed_time_ + 3),
         getGapSnapshot s (s.last_processed_time_ + 6), snap] ∧
    (∀ t, (getGapSnapshot s t).trade_count = 0 ∧ (getGapSnapshot s t).volume = 0 ∧
      (getGapSnapshot s t).turnover = 0 ∧
      (getGapSnapshot s t).latest_price_tick = s.last_snapshot_.latest_price_tick ∧
      (getGapSnapshot s t).bid_price_ticks = s.last_snapshot_.bid_price_ticks ∧
      (getGapSnapshot s t).bid_volumes = s.last_snapshot_.bid_volumes ∧
      (getGapSnapshot s t).ask_price_ticks = s.last_snapshot_.ask_price_ticks ∧
      (getGapSnapshot s t).ask_volumes = s.last_snapshot_.ask_volumes ∧
      (getGapSnapshot s t).direction = s.last_snapshot_.direction ∧
      (getGapSnapshot s t).seconds_in_day = t) := by
  constructor
  · have e3 : (s.last_processed_time_ + snapshot_interval) % 4294967296 =
        s.last_processed_time_ + 3 := by
      unfold snapshot_interval; omega
    have hps : (processSingleSnapshot s snap).continuous_snapshots_ =
        (processSnapshotInternal
          (gapFillLoop 4294967296 s
            ((s.last_processed_time_ + snapshot_interval) % 4294967296) snap)
          snap).continuous_snapshots_ := by
      simp only [processSingleSnapshot, hprev, if_true]
    rw [hps, e3]
    rw [show (4294967296 : Nat) = 4294967295 + 1 from rfl, gapFillLoop_succ]
    rw [if_pos (by omega : s.last_processed_time_ + 3 < snap.seconds_in_day)]
    have e6 : (s.last_processed_time_ + 3 + snapshot_interval) % 4294967296 =
        s.last_processed_time_ + 6 := by
      unfold snapshot_interval; omega
    rw [e6]
    rw [show (4294967295 : Nat) = 4294967294 + 1 from rfl, gapFillLoop_succ]
    rw [if_pos (by omega : s.last_processed_time_ + 6 < snap.seconds_in_day)]
    have e9 : (s.last_processed_time_ + 6 + snapshot_interval) % 4294967296 =
        s.last_processed_time_ + 9 := by
      unfold snapshot_interval; omega
    rw [e9]
    rw [getGapSnapshot_congr
      (processSnapshotInternal s (getGapSnapshot s (s.last_processed_time_ + 3))) s
      (s.last_processed_time_ + 6)
      (processSnapshotInternal_bookkeeping s
        (getGapSnapshot s (s.last_processed_time_ + 3))).1]
    rw [gapFillLoop_exit _ _ _ _
      (by omega : ¬ s.last_processed_time_ + 9 < snap.seconds_in_day)]
    rw [(processSnapshotInternal_bookkeeping _ snap).2.2.2,
      (processSnapshotInternal_bookkeeping _ _).2.2.2,
      (processSnapshotInternal_bookkeeping _ _).2.2.2]
    simp [List.append_assoc]
  · intro t
    exact ⟨rfl, rfl, rfl, rfl, rfl, rfl, rfl, rfl, rfl, rfl⟩

/-- C1 witness: after a real snapshot at 34200, the record at 34209 yields
exactly the gap snapshots at 34203 and 34206 between the real ones. -/
theorem gap_fill_9s_witness :
    (processSingleSnapshot wState1 c1SnapB).continuous_snapshots_ =
      wState1.continuous_snapshots_ ++
        [getGapSnapshot wState1 (wState1.last_processed_time_ + 3),
         getGapSnapshot wState1 (wState1.last_processed_time_ + 6), c1SnapB] :=
  (gap_fill_9s wState1 c1SnapB rfl (by decide) (by decide)).1

/-- C2: when the incoming record's intraday time is smaller than the last
processed one's, no synthetic gap snapshots are emitted — only the record
itself is appended — and the record becomes the new baseline
(`last_snapshot_`, `last_processed_time_`). -/
theorem session_boundary_backward (s : TAState) (snap : Snapshot_Record)
    (hprev : s.has_previous_snapshot_ = true)
    (hback : snap.seconds_in_day < s.last_processed_time_)
    (hintraday : s.last_processed_time_ < 86400) :
    (processSingleSnapshot s snap).continuous_snapshots_ =
      s.continuous_snapshots_ ++ [snap] ∧
    (processSingleSnapshot s snap).last_processed_time_ = snap.seconds_in_day ∧
    (processSingleSnapshot s snap).last_snapshot_ = snap ∧
    (processSingleSnapshot s snap).has_previous_snapshot_ = true := by
  refine ⟨?_, rfl, rfl, rfl⟩
  have e3 : (s.last_processed_time_ + snapshot_interval) % 4294967296 =
      s.last_processed_time_ + 3 := by
    unfold snapshot_interval; omega
  have hps : (processSingleSnapshot s snap).continuous_snapshots_ =
      (processSnapshotInternal
        (gapFillLoop 4294967296 s
          ((s.last_processed_time_ + snapshot_interval) % 4294967296) snap)
        snap).continuous_snapshots_ := by
    simp only [processSingleSnapshot, hprev, if_true]
  rw [hps, e3, gapFillLoop_exit _ _ _ _ (by omega)]
  exact (processSnapshotInternal_bookkeeping s snap).2.2.2

/-- C2 witness: a backward jump from 34200 to 30000 appends only the new
record and rebases the clock. -/
theorem session_boundary_backward_witness :
    (processSingleSnapshot wState1 c2SnapB).continuous_snapshots_ =
      wState1.continuous_snapshots_ ++ [c2SnapB] :=
  (session_boundary_backward wState1 c2SnapB rfl (by decide) (by decide)).1

end Stk

namespace Stk

/-- C6: a snapshot with `volume = 0` pushes the previous snapshot's VWAP
into the VWAP window (no division happens — the guard takes the fallback
branch), and a finalized bar with `volume = 0` records bar VWAP `0`. -/
theorem vwap_zero_guard :
    (∀ (s : TAState) (snap : Snapshot_Record), snap.volume = 0 →
      0 < s.snapshot_vwaps_.size_ →
      (analyzeSnapshot s snap).snapshot_vwaps_.back? = s.snapshot_vwaps_.back?) ∧
    (∀ (s : TAState) (bar : Bar_1m_Record), bar.volume = 0 →
      (analyzeMinuteBar s bar).bar_vwaps_.back? = some 0) := by
  constructor
  · intro s snap hv hs
    obtain ⟨w, hw⟩ : ∃ w, s.snapshot_vwaps_.back? = some w := by
      have h1 := DQueue.back?_isSome_of_size_pos s.snapshot_vwaps_ hs
      cases hww : s.snapshot_vwaps_.back? with
      | none => rw [hww] at h1; simp at h1
      | some w => exact ⟨w, rfl⟩
    have hvv : (analyzeSnapshot s snap).snapshot_vwaps_ =
        s.snapshot_vwaps_.push_back ((snapshotVwap s snap).getD 0) := rfl
    rw [hvv, DQueue.back?_push_back, hw]
    simp [snapshotVwap, hv, hw]
  · intro s bar hv
    have hvv : (analyzeMinuteBar s bar).bar_vwaps_ =
        s.bar_vwaps_.push_back
          (if bar.volume > PRICE_EPSILON then bar.turnover / bar.volume else 0) := rfl
    rw [hvv, DQueue.back?_push_back]
    rw [if_neg (by rw [hv]; unfold PRICE_EPSILON; norm_num)]

/-- C6 witness: with one prior VWAP (3) in the window, a zero-volume
snapshot re-pushes 3; a zero-volume bar records VWAP 0. -/
theorem vwap_zero_guard_witness :
    (analyzeSnapshot wStateV wSnapV0).snapshot_vwaps_.back? =
      wStateV.snapshot_vwaps_.back? ∧
    (analyzeMinuteBar initialState wBarV0).bar_vwaps_.back? = some 0 :=
  ⟨vwap_zero_guard.1 wStateV wSnapV0 rfl (by decide),
   vwap_zero_guard.2 initialState wBarV0 rfl⟩

/-- C9: every processed snapshot pushes mid-price
`bid_price_1 + ask_price_1 * 0.5` (the asymmetric formula, not
`(bid + ask) / 2` — the last conjunct exhibits an input where the two
differ) and spread `ask_price_1 - bid_price_1`. -/
theorem mid_price_spread_formula :
    (∀ (s : TAState) (snap : Snapshot_Record),
      (analyzeSnapshot s snap).snapshot_mid_prices_.back? =
        some (snap.bid_price_ticks 0 + snap.ask_price_ticks 0 * (1 / 2)) ∧
      (analyzeSnapshot s snap).snapshot_spreads_.back? =
        some (snap.ask_price_ticks 0 - snap.bid_price_ticks 0)) ∧
    (∃ (s : TAState) (snap : Snapshot_Record),
      (analyzeSnapshot s snap).snapshot_mid_prices_.back? ≠
        some ((snap.bid_price_ticks 0 + snap.ask_price_ticks 0) / 2)) := by
  constructor
  · intro s snap
    constructor
    · have h : (analyzeSnapshot s snap).snapshot_mid_prices_ =
          s.snapshot_mid_prices_.push_back
            (snap.bid_price_ticks 0 + snap.ask_price_ticks 0 * (1 / 2)) := rfl
      rw [h, DQueue.back?_push_back]
    · have h : (analyzeSnapshot s snap).snapshot_spreads_ =
          s.snapshot_spreads_.push_back
            (snap.ask_price_ticks 0 - snap.bid_price_ticks 0) := rfl
      rw [h, DQueue.back?_push_back]
  · refine ⟨initialState, mkSnap 34200 30 0 10 5 100, ?_⟩
    have h : (analyzeSnapshot initialState (mkSnap 34200 30 0 10 5 100)).snapshot_mid_prices_ =
        initialState.snapshot_mid_prices_.push_back
          ((mkSnap 34200 30 0 10 5 100).bid_price_ticks 0 +
            (mkSnap 34200 30 0 10 5 100).ask_price_ticks 0 * (1 / 2)) := rfl
    rw [h, DQueue.back?_push_back]
    simp [mkSnap]

/-- C10: the zero-volume VWAP fallback needs a prior snapshot: on the very
first snapshot it reads `back()` of the empty VWAP window (`none`, the
violated `size > 0` precondition); whenever the window is non-empty — in
particular after any `ProcessSingleSnapshot` — the fallback read is in
bounds. -/
theorem vwap_fallback_precondition :
    (∀ snap : Snapshot_Record, snap.volume = 0 →
      snapshotVwap initialState snap = none) ∧
    (∀ (s : TAState) (snap : Snapshot_Record), 0 < s.snapshot_vwaps_.size_ →
      (snapshotVwap s snap).isSome = true) ∧
    (∀ (s : TAState) (x : Snapshot_Record),
      0 < (processSingleSnapshot s x).snapshot_vwaps_.size_) := by
  refine ⟨?_, ?_, processSingleSnapshot_vwaps_size_pos⟩
  · intro snap hv
    simp [snapshotVwap, hv, initialState, DQueue.back?, DQueue.mkEmpty]
  · intro s snap hs
    unfold snapshotVwap
    split
    · rfl
    · exact DQueue.back?_isSome_of_size_pos s.snapshot_vwaps_ hs

/-- C10 witness: the first-ever zero-volume snapshot hits the empty-buffer
read; after one prior snapshot the read is in bounds. -/
theorem vwap_fallback_precondition_witness :
    snapshotVwap initialState wSnapV0 = none ∧
    (snapshotVwap wStateV wSnapV0).isSome = true :=
  ⟨vwap_fallback_precondition.1 wSnapV0 rfl,
   vwap_fallback_precondition.2.1 wStateV wSnapV0 (by decide)⟩

end Stk

namespace Stk

theorem processSnapshotInternal_first_bar (s : TAState) (snap : Snapshot_Record)
    (h : s.has_current_bar_ = false) :
    (processSnapshotInternal s snap).minute_bars_ = s.minute_bars_ ∧
    (processSnapshotInternal s snap).has_current_bar_ = true ∧
    (processSnapshotInternal s snap).current_bar_ =
      { year := snap.year, month := snap.month, day := snap.day,
        hour := snap.hour, minute := snap.minute,
        open_ := snap.latest_price_tick, high := snap.latest_price_tick,
        low := snap.latest_price_tick, close := snap.latest_price_tick,
        volume := ((snap.volume * 100 : Nat) : ℚ),
        turnover := (snap.turnover : ℚ) } := by
  simp only [processSnapshotInternal, isNewMinuteBar, analyzeSnapshot,
    startNewBar, finalizeCurrentBar, analyzeMinuteBar, updateCurrentBar, h]
  simp

theorem processSnapshotInternal_update_bar (s : TAState) (snap : Snapshot_Record)
    (h : s.has_current_bar_ = true)
    (hh : snap.hour = s.current_bar_.hour)
    (hm : snap.minute = s.current_bar_.minute) :
    (processSnapshotInternal s snap).minute_bars_ = s.minute_bars_ ∧
    (processSnapshotInternal s snap).has_current_bar_ = true ∧
    (processSnapshotInternal s snap).current_bar_ =
      { s.current_bar_ with
        high := if snap.latest_price_tick > s.current_bar_.high
          then snap.latest_price_tick else s.current_bar_.high
        low := if snap.latest_price_tick < s.current_bar_.low
          then snap.latest_price_tick else s.current_bar_.low
        close := snap.latest_price_tick
        volume := s.current_bar_.volume + ((snap.volume * 100 : Nat) : ℚ)
        turnover := s.current_bar_.turnover + (snap.turnover : ℚ) } := by
  simp only [processSnapshotInternal, isNewMinuteBar, analyzeSnapshot,
    startNewBar, finalizeCurrentBar, analyzeMinuteBar, updateCurrentBar, h,
    hh, hm]
  simp

theorem processSnapshotInternal_new_minute (s : TAState) (snap : Snapshot_Record)
    (h : s.has_current_bar_ = true)
    (hne : snap.hour ≠ s.current_bar_.hour ∨ snap.minute ≠ s.current_bar_.minute) :
    (processSnapshotInternal s snap).minute_bars_ =
      s.minute_bars_ ++ [s.current_bar_] ∧
    (processSnapshotInternal s snap).has_current_bar_ = true ∧
    (processSnapshotInternal s snap).current_bar_ =
      { year := snap.year, month := snap.month, day := snap.day,
        hour := snap.hour, minute := snap.minute,
        open_ := snap.latest_price_tick, high := snap.latest_price_tick,
        low := snap.latest_price_tick, close := snap.latest_price_tick,
        volume := ((snap.volume * 100 : Nat) : ℚ),
        turnover := (snap.turnover : ℚ) } := by
  have hb : isNewMinuteBar s snap = true := by
    simp only [isNewMinuteBar, h]
    simp only [if_neg (by simp : ¬ (true = false))]
    rcases hne with hx | hx <;> simp [bne_iff_ne, hx]
  simp only [processSnapshotInternal, isNewMinuteBar, analyzeSnapshot,
    startNewBar, finalizeCurrentBar, analyzeMinuteBar, updateCurrentBar, h] at hb ⊢
  simp only [hb]
  simp [h]

end Stk

namespace Stk

set_option maxHeartbeats 1000000

theorem processSingleSnapshot_first (s : TAState) (snap : Snapshot_Record)
    (h : s.has_previous_snapshot_ = false) :
    processSingleSnapshot s snap =
      { processSnapshotInternal s snap with
        last_snapshot_ := snap
        has_previous_snapshot_ := true
        last_processed_time_ := snap.seconds_in_day } := by
  unfold processSingleSnapshot
  simp [h]

/-- C5: four snapshots at prices 10, 10.5, 9.8, 10.2 inside minute 09:29,
then one at 09:30:00, finalize exactly one bar with open 10, high 10.5,
low 9.8, close 10.2 and volume/turnover the sums of the four inputs'
contributions. -/
theorem bar_finalization_ohlcv (v1 v2 v3 v4 t1 t2 t3 t4 : Nat) :
    (processAll initialState
      [mkSnap 34188 29 48 10 v1 t1,
       mkSnap 34191 29 51 (21 / 2) v2 t2,
       mkSnap 34194 29 54 (49 / 5) v3 t3,
       mkSnap 34197 29 57 (51 / 5) v4 t4,
       mkSnap 34200 30 0 10 0 0]).minute_bars_ =
      [{ year := 2024, month := 1, day := 2, hour := 9, minute := 29,
         open_ := 10, high := 21 / 2, low := 49 / 5, close := 51 / 5,
         volume := ((v1 * 100 : Nat) : ℚ) + ((v2 * 100 : Nat) : ℚ) +
           ((v3 * 100 : Nat) : ℚ) + ((v4 * 100 : Nat) : ℚ),
         turnover := (t1 : ℚ) + (t2 : ℚ) + (t3 : ℚ) + (t4 : ℚ) }] := by
  set s1 := mkSnap 34188 29 48 10 v1 t1 with hs1
  set s2 := mkSnap 34191 29 51 (21 / 2) v2 t2 with hs2
  set s3 := mkSnap 34194 29 54 (49 / 5) v3 t3 with hs3
  set s4 := mkSnap 34197 29 57 (51 / 5) v4 t4 with hs4
  set s5 := mkSnap 34200 30 0 10 0 0 with hs5
  set A1 := processSingleSnapshot initialState s1 with hA1def
  set A2 := processSingleSnapshot A1 s2 with hA2def
  set A3 := processSingleSnapshot A2 s3 with hA3def
  set A4 := processSingleSnapshot A3 s4 with hA4def
  have hfold : processAll initialState [s1, s2, s3, s4, s5] =
      processSingleSnapshot A4 s5 := rfl
  rw [hfold]
  -- step 1: first snapshot seeds the bar
  have hA1 : A1 = { processSnapshotInternal initialState s1 with
      last_snapshot_ := s1, has_previous_snapshot_ := true,
      last_processed_time_ := s1.seconds_in_day } :=
    processSingleSnapshot_first initialState s1 rfl
  have hP1 := processSnapshotInternal_first_bar initialState s1 rfl
  have hA1m : A1.minute_bars_ = [] := by rw [hA1]; exact hP1.1
  have hA1b : A1.has_current_bar_ = true := by rw [hA1]; exact hP1.2.1
  have hA1c : A1.current_bar_ =
      { year := 2024, month := 1, day := 2, hour := 9, minute := 29,
        open_ := 10, high := 10, low := 10, close := 10,
        volume := ((v1 * 100 : Nat) : ℚ), turnover := (t1 : ℚ) } := by
    rw [hA1]; exact hP1.2.2
  -- step 2
  have c2 : ¬ (A1.last_processed_time_ + snapshot_interval) % 4294967296 <
      s2.seconds_in_day := by
    show ¬ ((34188 : Nat) + snapshot_interval) % 4294967296 < 34191
    decide
  have hA2 : A2 = { processSnapshotInternal A1 s2 with
      last_snapshot_ := s2, has_previous_snapshot_ := true,
      last_processed_time_ := s2.seconds_in_day } :=
    processSingleSnapshot_no_gap A1 s2 c2
  have hP2 := processSnapshotInternal_update_bar A1 s2 hA1b
    (by rw [hA1c]; rfl) (by rw [hA1c]; rfl)
  have hA2m : A2.minute_bars_ = [] := by rw [hA2]; exact hP2.1.trans hA1m
  have hA2b : A2.has_current_bar_ = true := by rw [hA2]; exact hP2.2.1
  have hA2c : A2.current_bar_ =
      { year := 2024, month := 1, day := 2, hour := 9, minute := 29,
        open_ := 10, high := 21 / 2, low := 10, close := 21 / 2,
        volume := ((v1 * 100 : Nat) : ℚ) + ((v2 * 100 : Nat) : ℚ),
        turnover := (t1 : ℚ) + (t2 : ℚ) } := by
    rw [hA2]
    rw [hP2.2.2, hA1c]
    norm_num [hs2, mkSnap]
  -- step 3
  have c3 : ¬ (A2.last_processed_time_ + snapshot_interval) % 4294967296 <
      s3.seconds_in_day := by
    show ¬ ((34191 : Nat) + snapshot_interval) % 4294967296 < 34194
    decide
  have hA3 : A3 = { processSnapshotInternal A2 s3 with
      last_snapshot_ := s3, has_previous_snapshot_ := true,
      last_processed_time_ := s3.seconds_in_day } :=
    processSingleSnapshot_no_gap A2 s3 c3
  have hP3 := processSnapshotInternal_update_bar A2 s3 hA2b
    (by rw [hA2c]; rfl) (by rw [hA2c]; rfl)
  have hA3m : A3.minute_bars_ = [] := by rw [hA3]; exact hP3.1.trans hA2m
  have hA3b : A3.has_current_bar_ = true := by rw [hA3]; exact hP3.2.1
  have hA3c : A3.current_bar_ =
      { year := 2024, month := 1, day := 2, hour := 9, minute := 29,
        open_ := 10, high := 21 / 2, low := 49 / 5, close := 49 / 5,
        volume := ((v1 * 100 : Nat) : ℚ) + ((v2 * 100 : Nat) : ℚ) +
          ((v3 * 100 : Nat) : ℚ),
        turnover := (t1 : ℚ) + (t2 : ℚ) + (t3 : ℚ) } := by
    rw [hA3]
    rw [hP3.2.2, hA2c]
    norm_num [hs3, mkSnap]
  -- step 4
  have c4 : ¬ (A3.last_processed_time_ + snapshot_interval) % 4294967296 <
      s4.seconds_in_day := by
    show ¬ ((34194 : Nat) + snapshot_interval) % 4294967296 < 34197
    decide
  have hA4 : A4 = { processSnapshotInternal A3 s4 with
      last_snapshot_ := s4, has_previous_snapshot_ := true,
      last_processed_time_ := s4.seconds_in_day } :=
    processSingleSnapshot_no_gap A3 s4 c4
  have hP4 := processSnapshotInternal_update_bar A3 s4 hA3b
    (by rw [hA3c]; rfl) (by rw [hA3c]; rfl)
  have hA4m : A4.minute_bars_ = [] := by rw [hA4]; exact hP4.1.trans hA3m
  have hA4b : A4.has_current_bar_ = true := by rw [hA4]; exact hP4.2.1
  have hA4c : A4.current_bar_ =
      { year := 2024, month := 1, day := 2, hour := 9, minute := 29,
        open_ := 10, high := 21 / 2, low := 49 / 5, close := 51 / 5,
        volume := ((v1 * 100 : Nat) : ℚ) + ((v2 * 100 : Nat) : ℚ) +
          ((v3 * 100 : Nat) : ℚ) + ((v4 * 100 : Nat) : ℚ),
        turnover := (t1 : ℚ) + (t2 : ℚ) + (t3 : ℚ) + (t4 : ℚ) } := by
    rw [hA4]
    rw [hP4.2.2, hA3c]
    norm_num [hs4, mkSnap]
  -- step 5: minute changes, the bar is finalized
  have c5 : ¬ (A4.last_processed_time_ + snapshot_interval) % 4294967296 <
      s5.seconds_in_day := by
    show ¬ ((34197 : Nat) + snapshot_interval) % 4294967296 < 34200
    decide
  have hA5 : processSingleSnapshot A4 s5 = { processSnapshotInternal A4 s5 with
      last_snapshot_ := s5, has_previous_snapshot_ := true,
      last_processed_time_ := s5.seconds_in_day } :=
    processSingleSnapshot_no_gap A4 s5 c5
  have hne5 : s5.hour ≠ A4.current_bar_.hour ∨ s5.minute ≠ A4.current_bar_.minute :=
    Or.inr (by show (30 : Nat) ≠ 29; decide)
  have hP5 := processSnapshotInternal_new_minute A4 s5 hA4b hne5
  have hfin : (processSnapshotInternal A4 s5).minute_bars_ =
      [{ year := 2024, month := 1, day := 2, hour := 9, minute := 29,
         open_ := 10, high := 21 / 2, low := 49 / 5, close := 51 / 5,
         volume := ((v1 * 100 : Nat) : ℚ) + ((v2 * 100 : Nat) : ℚ) +
           ((v3 * 100 : Nat) : ℚ) + ((v4 * 100 : Nat) : ℚ),
         turnover := (t1 : ℚ) + (t2 : ℚ) + (t3 : ℚ) + (t4 : ℚ) }] := by
    rw [hP5.1, hA4m, hA4c]
    simp
  rw [hA5]
  exact hfin
end Stk
